import Mathlib

/-!
Verification of the TASCAM US-144MKII control panel
(src/tascam_controls/tascam-controls.py) against its design document.

The program shells out to external tools (`aplay`, `amixer`) and reads sysfs
files.  We embed those effects as explicit environments:
  * `Env` maps an argv list to the outcome of running it
    (binary missing / non-zero exit / success with captured stdout);
  * `Fs` maps a path to `none` (missing or unreadable) or `some contents`.
Python string primitives used by the code (`splitlines`, `in`, `split`,
`int`, `strip`, regular-expression `card (\d+):`) are modelled character by
character below.  Unicode-only corner cases of Python (`\d` matching
non-ASCII decimal digits, exotic unicode whitespace inside `int`/`strip`)
are modelled on the ASCII range the program actually meets.
-/

namespace Tascam

/-- Outcome of running an external command: the binary is absent
(`FileNotFoundError`), the process exits non-zero
(`subprocess.CalledProcessError`), or it succeeds with captured stdout. -/
inductive RunResult where
  | noBinary
  | nonZeroExit
  | ok (output : String)
deriving DecidableEq

/-- The external-command environment: what each argv list does when run. -/
abbrev Env := List String → RunResult

/-- The filesystem as seen through `os.path.exists` + `open().read()`:
`none` means the file is missing or unreadable (`IOError`). -/
abbrev Fs := String → Option String

/-- Python truthiness of an optional string: `not card_id` is true for
`None` and for the empty string. -/
def pyFalsy : Option String → Bool
  | none => true
  | some s => s.data.isEmpty

/-- Python `str()` of an optional string (`None` prints as "None"),
as used by f-string interpolation. -/
def pyStr : Option String → String
  | none => "None"
  | some s => s

/-! ### Python string primitives -/

/-- Line-break characters recognised by Python `str.splitlines`. -/
def isLineBreak (c : Char) : Bool :=
  c = '\n' || c = '\r' || c = '\x0b' || c = '\x0c' ||
  c = '\x1c' || c = '\x1d' || c = '\x1e' ||
  c = '\u0085' || c = ' ' || c = ' '

/-- Worker for `pySplitlines`: `acc` holds the current line reversed;
a `\r\n` pair is consumed as a single boundary. -/
def splitlinesAux : List Char → List Char → List (List Char)
  | [], acc => if acc.isEmpty then [] else [acc.reverse]
  | [c], acc => if isLineBreak c then [acc.reverse] else [(c :: acc).reverse]
  | c :: x :: rest, acc =>
    if isLineBreak c then
      if c = '\r' ∧ x = '\n' then acc.reverse :: splitlinesAux rest []
      else acc.reverse :: splitlinesAux (x :: rest) []
    else splitlinesAux (x :: rest) (c :: acc)

/-- Python `str.splitlines()`: split at line boundaries (`\r\n` counts as
one boundary), with no empty trailing line for a terminated final line. -/
def pySplitlines (s : String) : List (List Char) :=
  splitlinesAux s.data []

/-- Boolean list-prefix test (Python-style `startswith` on char lists). -/
def isPre : List Char → List Char → Bool
  | [], _ => true
  | _ :: _, [] => false
  | a :: as, b :: bs => if a = b then isPre as bs else false

/-- Python `needle in hay` for strings, on char lists. -/
def containsSub (needle : List Char) : List Char → Bool
  | [] => needle.isEmpty
  | c :: t => isPre needle (c :: t) || containsSub needle t

/-- The suffix of `hay` after the first occurrence of `needle`
(`none` when `needle` does not occur). -/
def afterSub (needle : List Char) : List Char → Option (List Char)
  | [] => if needle.isEmpty then some [] else none
  | c :: t =>
    if isPre needle (c :: t) then some ((c :: t).drop needle.length)
    else afterSub needle t

/-- Python `str.split(sep)` for a one-character separator (no maxsplit):
splits at every occurrence; `"".split(sep) == [""]`. -/
def splitOnChar (sep : Char) : List Char → List (List Char)
  | [] => [[]]
  | c :: rest =>
    if c = sep then [] :: splitOnChar sep rest
    else
      match splitOnChar sep rest with
      | [] => [[c]]
      | h :: t => (c :: h) :: t

/-- Whitespace stripped by Python `int()` and `str.strip()` (ASCII range). -/
def pyIsSpace (c : Char) : Bool :=
  c = ' ' || c = '\t' || c = '\n' || c = '\r' || c = '\x0b' || c = '\x0c'

/-- Python `str.strip()` on char lists. -/
def pyStrip (l : List Char) : List Char :=
  ((l.dropWhile pyIsSpace).reverse.dropWhile pyIsSpace).reverse

/-- Numeric value of an ASCII decimal digit. -/
def digitVal (c : Char) : Nat := c.toNat - 48

/-- Digits of a Python integer literal after the first digit: single
underscores are allowed between digits, never leading, trailing or doubled. -/
def pyDigitsAux : Nat → List Char → Option Nat
  | acc, [] => some acc
  | acc, '_' :: rest =>
    match rest with
    | d :: rest2 =>
      if d.isDigit then pyDigitsAux (acc * 10 + digitVal d) rest2 else none
    | [] => none
  | acc, d :: rest =>
    if d.isDigit then pyDigitsAux (acc * 10 + digitVal d) rest else none

/-- A nonempty run of decimal digits (with Python underscore grouping). -/
def pyDigits : List Char → Option Nat
  | [] => none
  | d :: rest => if d.isDigit then pyDigitsAux (digitVal d) rest else none

/-- Python `int(s)`: strip whitespace, optional sign, decimal digits;
`none` models the `ValueError` raised on anything else. -/
def pyInt (l : List Char) : Option Int :=
  match pyStrip l with
  | '+' :: rest => (pyDigits rest).map Int.ofNat
  | '-' :: rest => (pyDigits rest).map (fun n => -(n : Int))
  | rest => (pyDigits rest).map Int.ofNat

/-! ### The command lines the program builds -/

/-- A single-quote character, used by the `name='...'` amixer argument. -/
def sq : String := String.singleton (Char.ofNat 39)

/-- `['aplay', '-l']` -/
def aplay_cmd : List String := ["aplay", "-l"]

/-- `['amixer', '-c', card_id, 'cget', f"name='{control_name}'"]` -/
def cget_cmd (card_id control_name : String) : List String :=
  ["amixer", "-c", card_id, "cget", "name=" ++ sq ++ control_name ++ sq]

/-- `['amixer', '-c', card_id, 'cset', f"name='{control_name}'", str(value)]` -/
def cset_cmd (card_id control_name : String) (value : Int) : List String :=
  ["amixer", "-c", card_id, "cset", "name=" ++ sq ++ control_name ++ sq,
   toString value]

/-! ### AmixerController -/

/-- `re.match(r"card (\d+):", line)`, returning group 1.  The regex is
anchored at the start of the line; with backtracking it succeeds exactly
when the maximal digit run after `"card "` is nonempty and immediately
followed by a colon, and group 1 is that maximal run. -/
def matchCardPat (line : List Char) : Option (List Char) :=
  match line with
  | 'c' :: 'a' :: 'r' :: 'd' :: ' ' :: rest =>
    let digits := rest.takeWhile Char.isDigit
    if digits.isEmpty then none
    else
      match rest.drop digits.length with
      | ':' :: _ => some digits
      | _ => none
  | _ => none

/-- The loop of `get_card_id`: for each line containing the card name,
return the regex group if the pattern matches, otherwise keep scanning. -/
def scan_card_lines (card_name : List Char) : List (List Char) → Option (List Char)
  | [] => none
  | l :: rest =>
    if containsSub card_name l then
      match matchCardPat l with
      | some d => some d
      | none => scan_card_lines card_name rest
    else scan_card_lines card_name rest

/-- `AmixerController.get_card_id` (lines 81-92): run `aplay -l`, scan its
output; any `FileNotFoundError` or `CalledProcessError` yields `None`. -/
def get_card_id (card_name : String) (env : Env) : Option String :=
  match env aplay_cmd with
  | .noBinary => none
  | .nonZeroExit => none
  | .ok output =>
    (scan_card_lines card_name.data (pySplitlines output)).map
      (fun d => String.mk d)

/-- The needle `": values="` searched for in each amixer output line. -/
def valuesNeedle : List Char := ": values=".data

/-- `int(line.split('=')[1])` with both the `IndexError` and the
`ValueError` collapsing to the function result 0. -/
def parse_values_line (l : List Char) : Int :=
  match (splitOnChar '=' l).get? 1 with
  | none => 0
  | some seg =>
    match pyInt seg with
    | some n => n
    | none => 0

/-- First output line containing `": values="`. -/
def find_values_line : List (List Char) → Option (List Char)
  | [] => none
  | l :: rest =>
    if containsSub valuesNeedle l then some l else find_values_line rest

/-- `AmixerController.get_control_value` (lines 94-105), instrumented with
the list of external commands it invokes.  A falsy `card_id` returns 0
before any command is built; all caught exceptions return 0. -/
def get_control_value_full :
    Option String → String → Env → Int × List (List String)
  | none, _, _ => (0, [])
  | some cid, control_name, env =>
    if cid.data.isEmpty then (0, [])
    else
      let cmd := cget_cmd cid control_name
      match env cmd with
      | .noBinary => (0, [cmd])
      | .nonZeroExit => (0, [cmd])
      | .ok output =>
        match find_values_line (pySplitlines output) with
        | none => (0, [cmd])
        | some l => (parse_values_line l, [cmd])

/-- The value returned by `get_control_value`. -/
def get_control_value (card_id : Option String) (control_name : String)
    (env : Env) : Int :=
  (get_control_value_full card_id control_name env).1

/-- `AmixerController.set_control_value` (lines 107-115), instrumented with
the list of external commands it invokes.  `check_call` succeeds exactly
when the command runs and exits zero. -/
def set_control_value_full :
    Option String → String → Int → Env → Bool × List (List String)
  | none, _, _, _ => (false, [])
  | some cid, control_name, value, env =>
    if cid.data.isEmpty then (false, [])
    else
      let cmd := cset_cmd cid control_name value
      match env cmd with
      | .ok _ => (true, [cmd])
      | .noBinary => (false, [cmd])
      | .nonZeroExit => (false, [cmd])

/-- The boolean returned by `set_control_value`. -/
def set_control_value (card_id : Option String) (control_name : String)
    (value : Int) (env : Env) : Bool :=
  (set_control_value_full card_id control_name value env).1

/-- The fixed sysfs path `f"/sys/class/sound/card{card_id}/device/{attr_name}"`. -/
def sysfs_path (card_id : Option String) (attr_name : String) : String :=
  "/sys/class/sound/card" ++ pyStr card_id ++ "/device/" ++ attr_name

/-- `AmixerController.read_sysfs_attr` (lines 117-126): missing file or
`IOError` yields "N/A", otherwise the stripped file contents. -/
def read_sysfs_attr (card_id : Option String) (attr_name : String)
    (fs : Fs) : String :=
  match fs (sysfs_path card_id attr_name) with
  | some contents => String.mk (pyStrip contents.data)
  | none => "N/A"

/-! ### readString (spec-modelled) -/

/-- Value of a hexadecimal digit character. -/
def hexVal (c : Char) : Option Nat :=
  if '0' ≤ c ∧ c ≤ '9' then some (c.toNat - 48)
  else if 'a' ≤ c ∧ c ≤ 'f' then some (c.toNat - 87)
  else if 'A' ≤ c ∧ c ≤ 'F' then some (c.toNat - 55)
  else none

/-- One comma-separated token parsed as a hexadecimal byte (one or two
hex digits, as in the spec example "55,53,...,00"). -/
def parseHexByte : List Char → Option Nat
  | [a] => hexVal a
  | [a, b] =>
    match hexVal a, hexVal b with
    | some x, some y => some (16 * x + y)
    | _, _ => none
  | _ => none

/-- All comma-separated tokens parsed as hexadecimal bytes; any bad token
fails the whole field. -/
def parseHexBytes : List (List Char) → Option (List Nat)
  | [] => some []
  | t :: rest =>
    match parseHexByte t, parseHexBytes rest with
    | some b, some bs => some (b :: bs)
    | _, _ => none

/-- The bytes decoded as text up to (excluding) the first null byte. -/
def decodeBytes (bs : List Nat) : String :=
  String.mk ((bs.takeWhile (fun b => b ≠ 0)).map Char.ofNat)

/-- Modelled from the spec: the sources under src/ contain no
implementation of the Mixer Adapter's `readString` (only the spec's §4.2
contract describes it).  Per the spec: same invocation as `readInt`
(the mixer CLI in read mode for the named control), interpreting the
comma-separated hexadecimal byte sequence after "values=" as a
null-terminated byte string, decoding as text up to the first null byte;
"Error" or "N/A" on failure. -/
def read_string (card_id : Option String) (control_name : String)
    (env : Env) : String :=
  match card_id with
  | none => "N/A"
  | some cid =>
    if cid.data.isEmpty then "N/A"
    else
      match env (cget_cmd cid control_name) with
      | .noBinary => "Error"
      | .nonZeroExit => "Error"
      | .ok output =>
        match find_values_line (pySplitlines output) with
        | none => "Error"
        | some l =>
          match afterSub ("values=".data) l with
          | none => "Error"
          | some field =>
            match parseHexBytes (splitOnChar ',' field) with
            | none => "Error"
            | some bs => decodeBytes bs

/-! ### The GUI layer (TascamControlPanel) -/

/-- The state of a `QComboBox` that the program manipulates: its item
list, current index, and whether `blockSignals(True)` is in force. -/
structure ComboBox where
  items : List String
  currentIndex : Int
  signalsBlocked : Bool
deriving DecidableEq

/-- Qt emits `currentIndexChanged` on `setCurrentIndex` exactly when the
index actually changes and signals are not blocked; the connected handler
(`set_value`) runs exactly then. -/
def setCurrentIndexEmits (c : ComboBox) (i : Int) : Bool :=
  !c.signalsBlocked && decide (i ≠ c.currentIndex)

/-- The read-only status labels of the left panel. -/
structure InfoLabels where
  driver_version : String
  device : String
  sample_width : String
  sample_rate : String
  clock_source : String
  digital_status : String
deriving DecidableEq

/-- The state of the control panel window that the program's logic
touches: the captured card id, the status labels and the five dropdowns. -/
structure Panel where
  card_id : Option String
  info : InfoLabels
  latency_combo : ComboBox
  capture_12_combo : ComboBox
  capture_34_combo : ComboBox
  line_out_combo : ComboBox
  digital_out_combo : ComboBox
deriving DecidableEq

/-- A combo box as `create_control_widget` builds it: `addItems` leaves
the current index at 0 and signals unblocked. -/
def initCombo (items : List String) : ComboBox :=
  { items := items, currentIndex := 0, signalsBlocked := false }

/-- The panel as `init_ui` leaves it: all value labels read "N/A" and the
five dropdowns hold their fixed item lists (lines 176-221). -/
def init_ui_panel (card_id : Option String) : Panel :=
  { card_id := card_id
    info := { driver_version := "N/A", device := "N/A", sample_width := "N/A",
              sample_rate := "N/A", clock_source := "N/A",
              digital_status := "N/A" }
    latency_combo := initCombo ["low latency", "normal latency", "high latency"]
    capture_12_combo := initCombo ["Analog In", "Digital In"]
    capture_34_combo := initCombo ["Analog In", "Digital In"]
    line_out_combo := initCombo ["Playback 1-2", "Playback 3-4"]
    digital_out_combo := initCombo ["Playback 1-2", "Playback 3-4"] }

/-- The f-string `f"{rate_val / 1000:.1f} kHz"` (line 286), the float
division approximated by integer tenths; no claim concerns this text. -/
def sample_rate_label (rate_val : Int) : String :=
  if rate_val > 0 then
    toString (rate_val / 1000) ++ "." ++ toString (rate_val * 10 / 1000 % 10)
      ++ " kHz"
  else "N/A (inactive)"

/-- `TascamControlPanel.set_value` (lines 303-304): forwards the dropdown
index unchanged to `set_control_value`.  Returns the (unchanged) panel and
the commands invoked. -/
def set_value (p : Panel) (control_name : String) (index : Int)
    (env : Env) : Panel × List (List String) :=
  (p, (set_control_value_full p.card_id control_name index env).2)

/-- `TascamControlPanel.update_combo` (lines 297-301): read the control,
block the combo's signals, set its index to the value read, unblock.  The
`currentIndexChanged` handler (which would invoke `set_value`) runs only
if a signal is emitted.  Returns the new combo state and the commands
invoked. -/
def update_combo (card_id : Option String) (combo : ComboBox)
    (control_name : String) (env : Env) : ComboBox × List (List String) :=
  let r := get_control_value_full card_id control_name env
  let c1 : ComboBox := { combo with signalsBlocked := true }
  let handlerCmds :=
    if setCurrentIndexEmits c1 r.1 then
      (set_control_value_full card_id control_name r.1 env).2
    else []
  let c2 : ComboBox := { c1 with currentIndex := r.1, signalsBlocked := false }
  (c2, r.2 ++ handlerCmds)

/-- A user picking entry `i` in a dropdown wired (lines 243-249) to the
control `control_name`: the `currentIndexChanged` handler calls
`set_value` with the new index exactly when the signal is emitted. -/
def user_select_combo (card_id : Option String) (combo : ComboBox)
    (control_name : String) (i : Int) (env : Env) :
    ComboBox × List (List String) :=
  let emits := setCurrentIndexEmits combo i
  let c2 : ComboBox := { combo with currentIndex := i }
  (c2,
   if emits then (set_control_value_full card_id control_name i env).2
   else [])

/-- `TascamControlPanel.load_dynamic_settings` (lines 278-295): set the
static labels, read the driver version and sample rate, then populate the
five dropdowns via `update_combo` (latency, line out, digital out,
capture 1-2, capture 3-4, in source order).  Returns the new panel and
all commands invoked. -/
def load_dynamic_settings (p : Panel) (env : Env) (fs : Fs) :
    Panel × List (List String) :=
  let info1 := { p.info with
    driver_version := read_sysfs_attr p.card_id "driver_version" fs
    device := "US-144 MKII", sample_width := "24 bits"
    clock_source := "internal", digital_status := "unavailable" }
  let rate := get_control_value_full p.card_id "Sample Rate" env
  let info2 := { info1 with sample_rate := sample_rate_label rate.1 }
  let u1 := update_combo p.card_id p.latency_combo "Latency Profile" env
  let u2 := update_combo p.card_id p.line_out_combo "Line Out Source" env
  let u3 := update_combo p.card_id p.digital_out_combo "Digital Out Source" env
  let u4 := update_combo p.card_id p.capture_12_combo "Capture 1-2 Source" env
  let u5 := update_combo p.card_id p.capture_34_combo "Capture 3-4 Source" env
  ({ p with
      info := info2
      latency_combo := u1.1
      line_out_combo := u2.1
      digital_out_combo := u3.1
      capture_12_combo := u4.1
      capture_34_combo := u5.1 },
   rate.2 ++ u1.2 ++ u2.2 ++ u3.2 ++ u4.2 ++ u5.2)

/-- `TascamControlPanel.__init__` (lines 129-133): capture the card id,
build the UI, then load the dynamic settings. -/
def mk_panel (card_id : Option String) (env : Env) (fs : Fs) :
    Panel × List (List String) :=
  load_dynamic_settings (init_ui_panel card_id) env fs

/-- `main` (lines 306-316): locate the card; if falsy, show the critical
dialog and `sys.exit(1)`; otherwise build the panel, run the event loop
and exit with its return code (0 on normal close).  Result: (exit code,
whether the error dialog was shown). -/
def main_model (env : Env) (app_exec_code : Int) : Int × Bool :=
  if pyFalsy (get_card_id "US144MKII" env) then (1, true)
  else (app_exec_code, false)

/-! ### Spec-side byte encoding, for stating the readString claim -/

/-- The uppercase hexadecimal digit for `n < 16`. -/
def hexChar (n : Nat) : Char :=
  if n < 10 then Char.ofNat (48 + n) else Char.ofNat (55 + n)

/-- A byte printed as two uppercase hexadecimal digits, as in the spec's
example field "55,53,31,34,34,4D,4B,49,49,00". -/
def toHex2 (b : Nat) : List Char := [hexChar (b / 16), hexChar (b % 16)]

/-- Comma-join a list of tokens. -/
def joinCommas : List (List Char) → List Char
  | [] => []
  | [t] => t
  | t :: t2 :: rest => t ++ ',' :: joinCommas (t2 :: rest)

/-- A byte list printed as a comma-separated uppercase-hex field. -/
def hexField (bs : List Nat) : String :=
  String.mk (joinCommas (bs.map toHex2))

/-! ### Helper lemmas on the string primitives -/

theorem isEmpty_false_of_ne_nil {l : List Char} (h : l ≠ []) :
    l.isEmpty = false := by
  cases l with
  | nil => exact absurd rfl h
  | cons a t => rfl

theorem isPre_append_self (n t : List Char) : isPre n (n ++ t) = true := by
  induction n with
  | nil => rfl
  | cons c cs ih => simp [isPre, ih]

theorem containsSub_parts (n pre post : List Char) :
    containsSub n (pre ++ (n ++ post)) = true := by
  induction pre with
  | nil =>
    simp only [List.nil_append]
    cases n with
    | nil => cases post <;> rfl
    | cons c cs =>
      show (isPre (c :: cs) ((c :: cs) ++ post)
        || containsSub (c :: cs) (cs ++ post)) = true
      rw [isPre_append_self]
      rfl
  | cons c cs ih => simp [containsSub, ih]

theorem find_values_line_append (pre : List (List Char)) (l : List Char)
    (rest : List (List Char))
    (hpre : ∀ x ∈ pre, containsSub valuesNeedle x = false)
    (hl : containsSub valuesNeedle l = true) :
    find_values_line (pre ++ l :: rest) = some l := by
  induction pre with
  | nil => simp [find_values_line, hl]
  | cons x xs ih =>
    have hx : containsSub valuesNeedle x = false := hpre x (by simp)
    simp only [List.cons_append, find_values_line, hx]
    exact ih (fun y hy => hpre y (by simp [hy]))

theorem scan_card_lines_append (n : List Char) (pre : List (List Char))
    (l : List Char) (post : List (List Char)) (d : List Char)
    (hpre : ∀ x ∈ pre, containsSub n x = false)
    (hl : containsSub n l = true)
    (hm : matchCardPat l = some d) :
    scan_card_lines n (pre ++ l :: post) = some d := by
  induction pre with
  | nil => simp [scan_card_lines, hl, hm]
  | cons x xs ih =>
    have hx : containsSub n x = false := hpre x (by simp)
    simp only [List.cons_append, scan_card_lines, hx]
    exact ih (fun y hy => hpre y (by simp [hy]))

theorem splitOnChar_not_mem (sep : Char) (l : List Char) (h : sep ∉ l) :
    splitOnChar sep l = [l] := by
  induction l with
  | nil => rfl
  | cons c cs ih =>
    have hc : c ≠ sep := fun e => h (by simp [e])
    have ihc := ih (fun hm => h (by simp [hm]))
    simp [splitOnChar, hc, ihc]

theorem splitOnChar_append_sep (sep : Char) (a r : List Char) (h : sep ∉ a) :
    splitOnChar sep (a ++ sep :: r) = a :: splitOnChar sep r := by
  induction a with
  | nil => simp [splitOnChar]
  | cons c cs ih =>
    have hc : c ≠ sep := fun e => h (by simp [e])
    have ihc := ih (fun hm => h (by simp [hm]))
    simp [splitOnChar, hc, ihc]

theorem takeWhile_all_append (p : Char → Bool) (d : List Char) (x : Char)
    (t : List Char) (hd : ∀ c ∈ d, p c = true) (hx : p x = false) :
    (d ++ x :: t).takeWhile p = d := by
  induction d with
  | nil => simp [List.takeWhile_cons, hx]
  | cons c cs ih =>
    have hc : p c = true := hd c (by simp)
    simp only [List.cons_append, List.takeWhile_cons, hc, if_pos]
    rw [ih (fun y hy => hd y (by simp [hy]))]

theorem matchCardPat_of_parts (d t : List Char) (hd : d ≠ [])
    (hdig : ∀ c ∈ d, c.isDigit = true) :
    matchCardPat ("card ".data ++ d ++ ':' :: t) = some d := by
  have hns : Char.isDigit ':' = false := rfl
  have htw : (d ++ ':' :: t).takeWhile Char.isDigit = d :=
    takeWhile_all_append _ d ':' t hdig hns
  have hdr : (d ++ ':' :: t).drop d.length = ':' :: t := List.drop_left d _
  have hde : d.isEmpty = false := by
    cases d with
    | nil => exact absurd rfl hd
    | cons c cs => rfl
  show matchCardPat ('c' :: 'a' :: 'r' :: 'd' :: ' ' :: (d ++ ':' :: t)) = some d
  simp [matchCardPat, htw, hde, hdr]

theorem matchCardPat_ne_nil (l d : List Char) (h : matchCardPat l = some d) :
    d ≠ [] := by
  unfold matchCardPat at h
  split at h
  · rename_i rest
    by_cases he : (rest.takeWhile Char.isDigit).isEmpty
    · simp [he] at h
    · simp only [he, if_neg, Bool.false_eq_true, not_false_eq_true] at h
      split at h
      · cases h
        intro hnil
        rw [hnil] at he
        exact he rfl
      · cases h
  · cases h

theorem scan_card_lines_ne_nil (n : List Char) (ls : List (List Char))
    (d : List Char) (h : scan_card_lines n ls = some d) : d ≠ [] := by
  induction ls with
  | nil => cases h
  | cons l rest ih =>
    unfold scan_card_lines at h
    by_cases hc : containsSub n l = true
    · simp only [hc, if_pos] at h
      cases hm : matchCardPat l with
      | none => rw [hm] at h; exact ih h
      | some d2 =>
        rw [hm] at h
        cases h
        exact matchCardPat_ne_nil l _ hm
    · simp only [Bool.not_eq_true] at hc
      simp only [hc, Bool.false_eq_true, if_neg, not_false_eq_true] at h
      exact ih h

theorem get_card_id_ne_empty (nm : String) (env : Env) (s : String)
    (h : get_card_id nm env = some s) : s.data ≠ [] := by
  unfold get_card_id at h
  cases henv : env aplay_cmd with
  | noBinary => simp only [henv] at h; cases h
  | nonZeroExit => simp only [henv] at h; cases h
  | ok output =>
    simp only [henv] at h
    cases hs : scan_card_lines nm.data (pySplitlines output) with
    | none => rw [hs] at h; simp at h
    | some d =>
      rw [hs] at h
      simp only [Option.map_some'] at h
      cases h
      exact scan_card_lines_ne_nil _ _ _ hs

theorem parse_values_line_of_parts (pre rest : List Char)
    (hpre : '=' ∉ pre) (hrest : '=' ∉ rest) :
    parse_values_line (pre ++ valuesNeedle ++ rest) = (pyInt rest).getD 0 := by
  have h1 : valuesNeedle = ": values".data ++ ['='] := rfl
  have hval : pre ++ valuesNeedle ++ rest
      = (pre ++ ": values".data) ++ '=' :: rest := by
    rw [h1]; simp
  have hnm : '=' ∉ pre ++ ": values".data := by
    intro hmem
    rcases List.mem_append.mp hmem with h | h
    · exact hpre h
    · revert h; decide
  rw [hval]
  unfold parse_values_line
  rw [splitOnChar_append_sep _ _ _ hnm, splitOnChar_not_mem _ _ hrest]
  simp only [List.get?]
  cases pyInt rest <;> rfl

theorem find_values_line_none (ls : List (List Char))
    (h : ∀ l ∈ ls, containsSub valuesNeedle l = false) :
    find_values_line ls = none := by
  induction ls with
  | nil => rfl
  | cons l rest ih =>
    have hl : containsSub valuesNeedle l = false := h l (by simp)
    simp only [find_values_line, hl, Bool.false_eq_true, if_neg,
      not_false_eq_true]
    exact ih (fun y hy => h y (by simp [hy]))

/-- C3 (amended): with a well-formed card index, `get_control_value`
returns 0 when the mixer binary is missing, on a non-zero exit, and when
no output line contains ": values="; and on the first line containing
": values=", provided the only "=" on that line is the one ending
"values=", it returns the integer Python-parsed from the values= field
(0 when that field is unparsable).  (In general the code takes the text
between the first and the second "=" of the line; see the
counterexample.) -/
theorem get_control_value_spec :
    ∀ (cid name : String) (env : Env), cid.data ≠ [] →
      (env (cget_cmd cid name) = .noBinary →
        get_control_value (some cid) name env = 0)
      ∧ (env (cget_cmd cid name) = .nonZeroExit →
        get_control_value (some cid) name env = 0)
      ∧ (∀ output, env (cget_cmd cid name) = .ok output →
          ((∀ l ∈ pySplitlines output, containsSub valuesNeedle l = false) →
            get_control_value (some cid) name env = 0)
          ∧ (∀ preLines l postLines pre rest,
              pySplitlines output = preLines ++ l :: postLines →
              (∀ x ∈ preLines, containsSub valuesNeedle x = false) →
              l = pre ++ valuesNeedle ++ rest →
              '=' ∉ pre → '=' ∉ rest →
              get_control_value (some cid) name env = (pyInt rest).getD 0)) := by
  intro cid name env hcid
  have hce : cid.data.isEmpty = false := isEmpty_false_of_ne_nil hcid
  unfold get_control_value get_control_value_full
  simp only [hce, Bool.false_eq_true, if_neg, not_false_eq_true]
  refine ⟨fun h => by simp [h], fun h => by simp [h], fun output hout => ?_⟩
  simp only [hout]
  constructor
  · intro hnone
    rw [find_values_line_none _ hnone]
  · intro preLines l postLines pre rest hsplit hpre hl hepre herest
    have hcl : containsSub valuesNeedle l = true := by
      rw [hl, List.append_assoc]
      exact containsSub_parts _ _ _
    rw [hsplit, find_values_line_append _ _ _ hpre hcl]
    show parse_values_line l = (pyInt rest).getD 0
    rw [hl]
    exact parse_values_line_of_parts pre rest hepre herest

/-- C3 witness: on mixer output whose values line is "  : values=44100"
the embedded `get_control_value` returns 44100. -/
theorem get_control_value_spec_witness :
    get_control_value (some "2") "Sample Rate"
      (fun c => if c = cget_cmd "2" "Sample Rate" then
        .ok "  ; type=INTEGER,access=r\n  : values=44100" else .noBinary)
      = 44100 := by
  have h := ((get_control_value_spec "2" "Sample Rate"
      (fun c => if c = cget_cmd "2" "Sample Rate" then
        .ok "  ; type=INTEGER,access=r\n  : values=44100" else .noBinary)
      (by decide)).2.2
      "  ; type=INTEGER,access=r\n  : values=44100" (by decide)).2
      ["  ; type=INTEGER,access=r".data] "  : values=44100".data []
      [' ', ' '] "44100".data (by decide) (by decide) (by decide)
      (by decide) (by decide)
  rw [h]
  decide

/-- C3 counterexample: the claim reads the integer out of the values=
field, but on the line "a=3= : values=7" (which contains ": values=" and
whose values= field holds 7) the code computes
`int(line.split('=')[1])` = 3. -/
theorem get_control_value_counterexample :
    get_control_value (some "2") "Sample Rate"
        (fun _ => .ok "a=3= : values=7") = 3
    ∧ afterSub ("values=".data) ("a=3= : values=7".data) = some ['7']
    ∧ pyInt ['7'] = some 7
    ∧ (3 : Int) ≠ 7 := by
  refine ⟨by decide, by decide, by decide, by decide⟩

theorem scan_card_lines_none (n : List Char) (ls : List (List Char))
    (h : ∀ l ∈ ls, containsSub n l = false) :
    scan_card_lines n ls = none := by
  induction ls with
  | nil => rfl
  | cons l rest ih =>
    have hl : containsSub n l = false := h l (by simp)
    simp only [scan_card_lines, hl, Bool.false_eq_true, if_neg,
      not_false_eq_true]
    exact ih (fun y hy => h y (by simp [hy]))

/-- C2: the Device Locator returns `None` when the enumeration command is
missing, exits non-zero, or no output line contains the device name; and
when the first line containing the device name starts with
"card `<digits>`:" it returns those digits as the card index. -/
theorem get_card_id_spec :
    ∀ (name : String) (env : Env),
      (env aplay_cmd = .noBinary → get_card_id name env = none)
      ∧ (env aplay_cmd = .nonZeroExit → get_card_id name env = none)
      ∧ (∀ output, env aplay_cmd = .ok output →
          ((∀ l ∈ pySplitlines output, containsSub name.data l = false) →
            get_card_id name env = none)
          ∧ (∀ preLines l postLines d tail,
              pySplitlines output = preLines ++ l :: postLines →
              (∀ x ∈ preLines, containsSub name.data x = false) →
              containsSub name.data l = true →
              l = "card ".data ++ d ++ ':' :: tail →
              d ≠ [] → (∀ c ∈ d, c.isDigit = true) →
              get_card_id name env = some (String.mk d))) := by
  intro name env
  unfold get_card_id
  refine ⟨fun h => by simp [h], fun h => by simp [h], fun output hout => ?_⟩
  simp only [hout]
  constructor
  · intro hnone
    rw [scan_card_lines_none _ _ hnone]
    rfl
  · intro preLines l postLines d tail hsplit hpre hcl hl hd hdig
    have hm : matchCardPat l = some d := by
      rw [hl]
      exact matchCardPat_of_parts d tail hd hdig
    rw [hsplit, scan_card_lines_append _ _ _ _ _ hpre hcl hm]
    rfl

/-- C2 witness: enumeration output whose second line is
"card 2: US144MKII [US-144 MKII], device 0" locates card "2". -/
theorem get_card_id_spec_witness :
    get_card_id "US144MKII"
      (fun c => if c = aplay_cmd then
        .ok "card 1: other device\ncard 2: US144MKII [US-144 MKII], device 0"
      else .noBinary) = some "2" := by
  have h := ((get_card_id_spec "US144MKII"
      (fun c => if c = aplay_cmd then
        .ok "card 1: other device\ncard 2: US144MKII [US-144 MKII], device 0"
      else .noBinary)).2.2
      "card 1: other device\ncard 2: US144MKII [US-144 MKII], device 0"
      (by decide)).2
      ["card 1: other device".data]
      "card 2: US144MKII [US-144 MKII], device 0".data []
      ['2'] " US144MKII [US-144 MKII], device 0".data
      (by decide) (by decide) (by decide) (by decide) (by decide) (by decide)
  rw [h]

/-- C4: with a well-formed card index, `set_control_value` returns false
exactly when the mixer binary is missing or the command exits non-zero,
and true otherwise. -/
theorem set_control_value_spec :
    ∀ (cid name : String) (v : Int) (env : Env), cid.data ≠ [] →
      (set_control_value (some cid) name v env = false ↔
        (env (cset_cmd cid name v) = .noBinary ∨
         env (cset_cmd cid name v) = .nonZeroExit)) := by
  intro cid name v env hcid
  have hce := isEmpty_false_of_ne_nil hcid
  unfold set_control_value set_control_value_full
  simp only [hce, Bool.false_eq_true, if_neg, not_false_eq_true]
  cases h : env (cset_cmd cid name v) <;> simp [h]

/-- C4 witness: a non-zero exit makes the write report failure, and a
successful run makes it report success. -/
theorem set_control_value_spec_witness :
    set_control_value (some "2") "Latency Profile" 1
        (fun _ => .nonZeroExit) = false
    ∧ set_control_value (some "2") "Latency Profile" 1
        (fun _ => .ok "") = true := by
  constructor
  · exact (set_control_value_spec "2" "Latency Profile" 1
      (fun _ => .nonZeroExit) (by decide)).mpr (Or.inr rfl)
  · have h := (set_control_value_spec "2" "Latency Profile" 1
      (fun _ => .ok "") (by decide))
    cases hb : set_control_value (some "2") "Latency Profile" 1
        (fun _ => .ok "") with
    | true => rfl
    | false =>
      rcases h.mp hb with hx | hx <;> cases hx

/-- C5: `read_sysfs_attr` returns the whitespace-trimmed contents of the
file at the fixed path derived from the card index and attribute name,
and "N/A" when that file is missing or unreadable. -/
theorem read_sysfs_attr_spec :
    ∀ (cid attr : String) (fs : Fs),
      (∀ contents, fs (sysfs_path (some cid) attr) = some contents →
        read_sysfs_attr (some cid) attr fs
          = String.mk (pyStrip contents.data))
      ∧ (fs (sysfs_path (some cid) attr) = none →
        read_sysfs_attr (some cid) attr fs = "N/A") := by
  intro cid attr fs
  unfold read_sysfs_attr
  exact ⟨fun c h => by rw [h], fun h => by rw [h]⟩

/-- C5 witness: a file holding "  1.0.0\n" reads back as "1.0.0", and a
missing file reads back as "N/A". -/
theorem read_sysfs_attr_spec_witness :
    read_sysfs_attr (some "2") "driver_version"
      (fun p => if p = sysfs_path (some "2") "driver_version" then
        some "  1.0.0\n" else none) = "1.0.0"
    ∧ read_sysfs_attr (some "2") "driver_version" (fun _ => none) = "N/A" := by
  constructor
  · have h := (read_sysfs_attr_spec "2" "driver_version"
      (fun p => if p = sysfs_path (some "2") "driver_version" then
        some "  1.0.0\n" else none)).1 "  1.0.0\n" (by simp)
    rw [h]
    decide
  · exact (read_sysfs_attr_spec "2" "driver_version" (fun _ => none)).2 rfl

/-- C9: a falsy card index (`None` or the empty string) makes
`get_control_value` return 0 and `set_control_value` return false
immediately, with no external command invoked. -/
theorem falsy_card_short_circuit :
    ∀ (name : String) (v : Int) (env : Env),
      get_control_value_full none name env = (0, [])
      ∧ get_control_value_full (some "") name env = (0, [])
      ∧ set_control_value_full none name v env = (false, [])
      ∧ set_control_value_full (some "") name v env = (false, []) := by
  intro name v env
  exact ⟨rfl, rfl, rfl, rfl⟩

/-- C6: a user dropdown change writes exactly the dropdown's ordered
position: the invoked `cset` command carries `str(i)` as its value
argument; conversely `update_combo` sets the dropdown's current index to
exactly the integer read from the control. -/
theorem dropdown_value_mapping :
    ∀ (cid name : String) (i : Int) (env : Env) (combo : ComboBox),
      cid.data ≠ [] →
      setCurrentIndexEmits combo i = true →
      (user_select_combo (some cid) combo name i env).2
          = [cset_cmd cid name i]
      ∧ (user_select_combo (some cid) combo name i env).1.currentIndex = i
      ∧ (cset_cmd cid name i).get? 5 = some (toString i)
      ∧ (∀ (card : Option String) (c2 : ComboBox) (n2 : String),
          (update_combo card c2 n2 env).1.currentIndex
            = get_control_value card n2 env) := by
  intro cid name i env combo hcid hem
  have hce := isEmpty_false_of_ne_nil hcid
  refine ⟨?_, rfl, rfl, fun card c2 n2 => rfl⟩
  unfold user_select_combo
  simp only [hem, if_pos]
  unfold set_control_value_full
  simp only [hce, Bool.false_eq_true, if_neg, not_false_eq_true]
  cases h : env (cset_cmd cid name i) <;> rfl

/-- C6 witness: selecting entry 1 of the line-out dropdown issues exactly
the `cset` write with value "1". -/
theorem dropdown_value_mapping_witness :
    (user_select_combo (some "2")
        (initCombo ["Playback 1-2", "Playback 3-4"])
        "Line Out Source" 1 (fun _ => .ok "")).2
      = [cset_cmd "2" "Line Out Source" 1] :=
  (dropdown_value_mapping "2" "Line Out Source" 1 (fun _ => .ok "")
    (initCombo ["Playback 1-2", "Playback 3-4"])
    (by decide) (by decide)).1

/-- C8: the card index is captured at construction and never modified:
the constructor stores its argument, and `load_dynamic_settings` and
`set_value` leave `card_id` unchanged (the adapter itself is stateless). -/
theorem card_id_immutable :
    ∀ (card : Option String) (env : Env) (fs : Fs) (p : Panel)
      (name : String) (i : Int),
      (mk_panel card env fs).1.card_id = card
      ∧ (load_dynamic_settings p env fs).1.card_id = p.card_id
      ∧ (set_value p name i env).1.card_id = p.card_id := by
  intro card env fs p name i
  exact ⟨rfl, rfl, rfl⟩

/-- C7: with the event loop returning 0 (normal GUI close), the process
exit code is 1, with the error dialog shown, exactly when the device
cannot be located; when a card is found the exit is (0, no dialog). -/
theorem main_exit_spec :
    ∀ env : Env,
      ((main_model env 0).1 = 1 ↔ get_card_id "US144MKII" env = none)
      ∧ (get_card_id "US144MKII" env = none → main_model env 0 = (1, true))
      ∧ (∀ cid, get_card_id "US144MKII" env = some cid →
          main_model env 0 = (0, false)) := by
  intro env
  unfold main_model
  cases h : get_card_id "US144MKII" env with
  | none => simp [pyFalsy]
  | some s =>
    have hne : s.data ≠ [] := get_card_id_ne_empty _ env s h
    have hf : pyFalsy (some s) = false := isEmpty_false_of_ne_nil hne
    simp [hf]

/-- C7 witness: a failing enumeration exits (1, dialog shown); a located
card with a normally closing GUI exits (0, no dialog). -/
theorem main_exit_spec_witness :
    main_model (fun _ => .noBinary) 0 = (1, true)
    ∧ main_model (fun c => if c = aplay_cmd then
        .ok "card 2: US144MKII [US-144 MKII], device 0" else .noBinary) 0
      = (0, false) :=
  ⟨(main_exit_spec (fun _ => .noBinary)).2.1 rfl,
   (main_exit_spec (fun c => if c = aplay_cmd then
        .ok "card 2: US144MKII [US-144 MKII], device 0" else .noBinary)).2.2
     "2" (by decide)⟩

theorem get_control_value_full_cmds_cget (card : Option String)
    (n : String) (env : Env) (cmd : List String)
    (h : cmd ∈ (get_control_value_full card n env).2) :
    cmd.get? 3 = some "cget" := by
  rcases card with _ | cid
  · simp [get_control_value_full] at h
  · by_cases hce : cid.data.isEmpty
    · simp [get_control_value_full, hce] at h
    · cases henv : env (cget_cmd cid n) with
      | noBinary =>
        simp [get_control_value_full, hce, henv] at h
        rw [h]; rfl
      | nonZeroExit =>
        simp [get_control_value_full, hce, henv] at h
        rw [h]; rfl
      | ok output =>
        cases hf : find_values_line (pySplitlines output) with
        | none =>
          simp [get_control_value_full, hce, henv, hf] at h
          rw [h]; rfl
        | some l =>
          simp [get_control_value_full, hce, henv, hf] at h
          rw [h]; rfl

theorem emits_blocked (c : ComboBox) (i : Int) :
    setCurrentIndexEmits { c with signalsBlocked := true } i = false := rfl

theorem update_combo_cmds_cget (card : Option String) (combo : ComboBox)
    (n : String) (env : Env) (cmd : List String)
    (h : cmd ∈ (update_combo card combo n env).2) :
    cmd.get? 3 = some "cget" := by
  simp only [update_combo, emits_blocked, Bool.false_eq_true, if_neg,
    not_false_eq_true, List.append_nil] at h
  exact get_control_value_full_cmds_cget card n env cmd h

/-- C10: populating the dropdowns never writes a control: every command
invoked by `update_combo`, by `load_dynamic_settings`, and by the
constructor is an `amixer ... cget` read (signals are blocked while the
index is set programmatically, so the `set_value` handler never runs),
while a write command always carries "cset" in that position. -/
theorem startup_load_no_writes :
    ∀ (card : Option String) (combo : ComboBox) (nm : String) (env : Env)
      (p : Panel) (fs : Fs),
      (∀ cmd ∈ (update_combo card combo nm env).2,
        cmd.get? 3 = some "cget")
      ∧ (∀ cmd ∈ (load_dynamic_settings p env fs).2,
        cmd.get? 3 = some "cget")
      ∧ (∀ cmd ∈ (mk_panel card env fs).2, cmd.get? 3 = some "cget")
      ∧ (∀ (cid : String) (v : Int),
          (cset_cmd cid nm v).get? 3 = some "cset") := by
  intro card combo nm env p fs
  have hload : ∀ (q : Panel),
      ∀ cmd ∈ (load_dynamic_settings q env fs).2,
        cmd.get? 3 = some "cget" := by
    intro q cmd h
    simp only [load_dynamic_settings, List.mem_append] at h
    rcases h with ((((h | h) | h) | h) | h) | h
    · exact get_control_value_full_cmds_cget _ _ _ _ h
    · exact update_combo_cmds_cget _ _ _ _ _ h
    · exact update_combo_cmds_cget _ _ _ _ _ h
    · exact update_combo_cmds_cget _ _ _ _ _ h
    · exact update_combo_cmds_cget _ _ _ _ _ h
    · exact update_combo_cmds_cget _ _ _ _ _ h
  exact ⟨fun cmd h => update_combo_cmds_cget _ _ _ _ _ h,
    hload p, hload (init_ui_panel card), fun cid v => rfl⟩

/-- C10 witness: loading the latency dropdown from a live control invokes
only the `cget` read. -/
theorem startup_load_no_writes_witness :
    (cget_cmd "2" "Latency Profile").get? 3 = some "cget" :=
  (startup_load_no_writes (some "2")
    (initCombo ["low latency", "normal latency", "high latency"])
    "Latency Profile" (fun _ => .ok "  : values=1")
    (init_ui_panel (some "2")) (fun _ => none)).1
    (cget_cmd "2" "Latency Profile") (by decide)

theorem hexVal_hexChar : ∀ n, n < 16 → hexVal (hexChar n) = some n := by
  decide

theorem hexChar_ne_comma : ∀ n, n < 16 → hexChar n ≠ ',' := by decide

theorem hexChar_not_break : ∀ n, n < 16 → isLineBreak (hexChar n) = false := by
  decide

theorem parseHexByte_toHex2 (b : Nat) (h : b < 256) :
    parseHexByte (toHex2 b) = some b := by
  have h1 : b / 16 < 16 := by omega
  have h2 : b % 16 < 16 := by omega
  show (match hexVal (hexChar (b / 16)), hexVal (hexChar (b % 16)) with
    | some x, some y => some (16 * x + y)
    | _, _ => none) = some b
  rw [hexVal_hexChar _ h1, hexVal_hexChar _ h2]
  show some (16 * (b / 16) + b % 16) = some b
  rw [Nat.div_add_mod b 16]

theorem comma_not_mem_toHex2 (b : Nat) (h : b < 256) : ',' ∉ toHex2 b := by
  have h1 : b / 16 < 16 := by omega
  have h2 : b % 16 < 16 := by omega
  intro hm
  simp only [toHex2, List.mem_cons, List.not_mem_nil, or_false] at hm
  rcases hm with hm | hm
  · exact hexChar_ne_comma _ h1 hm.symm
  · exact hexChar_ne_comma _ h2 hm.symm

theorem splitOnChar_joinCommas :
    ∀ toks : List (List Char), toks ≠ [] → (∀ t ∈ toks, ',' ∉ t) →
      splitOnChar ',' (joinCommas toks) = toks := by
  intro toks
  induction toks with
  | nil => intro h; exact absurd rfl h
  | cons t rest ih =>
    intro _ hmem
    cases rest with
    | nil =>
      show splitOnChar ',' t = [t]
      exact splitOnChar_not_mem _ _ (hmem t (by simp))
    | cons t2 rest2 =>
      show splitOnChar ',' (t ++ ',' :: joinCommas (t2 :: rest2))
        = t :: t2 :: rest2
      rw [splitOnChar_append_sep _ _ _ (hmem t (by simp))]
      rw [ih (by simp) (fun x hx => hmem x (by simp [hx]))]

theorem parseHexBytes_map (bs : List Nat) (h : ∀ b ∈ bs, b < 256) :
    parseHexBytes (bs.map toHex2) = some bs := by
  induction bs with
  | nil => rfl
  | cons b rest ih =>
    have hb : b < 256 := h b (by simp)
    show (match parseHexByte (toHex2 b), parseHexBytes (rest.map toHex2) with
      | some x, some xs => some (x :: xs)
      | _, _ => none) = some (b :: rest)
    rw [parseHexByte_toHex2 b hb, ih (fun x hx => h x (by simp [hx]))]

theorem mem_joinCommas :
    ∀ (toks : List (List Char)) (c : Char), c ∈ joinCommas toks →
      c = ',' ∨ ∃ t ∈ toks, c ∈ t := by
  intro toks
  induction toks with
  | nil => intro c h; cases h
  | cons t rest ih =>
    intro c h
    cases rest with
    | nil =>
      exact Or.inr ⟨t, by simp, h⟩
    | cons t2 rest2 =>
      have h2 : c ∈ t ++ ',' :: joinCommas (t2 :: rest2) := h
      rcases List.mem_append.mp h2 with hx | hx
      · exact Or.inr ⟨t, by simp, hx⟩
      · rcases List.mem_cons.mp hx with hc | hx2
        · exact Or.inl hc
        · rcases ih c hx2 with hc | ⟨u, hu, hcu⟩
          · exact Or.inl hc
          · exact Or.inr ⟨u, by simp [hu], hcu⟩

theorem splitlinesAux_no_break :
    ∀ (l acc : List Char), l ≠ [] →
      (∀ c ∈ l, isLineBreak c = false) →
      splitlinesAux l acc = [acc.reverse ++ l] := by
  intro l
  induction l with
  | nil => intro acc h; exact absurd rfl h
  | cons c tail ih =>
    intro acc _ hnb
    have hc : isLineBreak c = false := hnb c (by simp)
    cases tail with
    | nil =>
      show (if isLineBreak c then [acc.reverse]
        else [(c :: acc).reverse]) = [acc.reverse ++ [c]]
      rw [hc]
      simp
    | cons x rest =>
      show (if isLineBreak c then
          if c = '\r' ∧ x = '\n' then acc.reverse :: splitlinesAux rest []
          else acc.reverse :: splitlinesAux (x :: rest) []
        else splitlinesAux (x :: rest) (c :: acc))
        = [acc.reverse ++ c :: x :: rest]
      rw [hc]
      simp only [Bool.false_eq_true, if_neg, not_false_eq_true]
      rw [ih (c :: acc) (by simp) (fun y hy => hnb y (by simp [hy]))]
      simp

theorem pySplitlines_single (s : String) (hne : s.data ≠ [])
    (h : ∀ c ∈ s.data, isLineBreak c = false) :
    pySplitlines s = [s.data] := by
  unfold pySplitlines
  rw [splitlinesAux_no_break s.data [] hne h]
  rfl

theorem afterSub_cons_neg (n : List Char) (c : Char) (t : List Char)
    (h : isPre n (c :: t) = false) : afterSub n (c :: t) = afterSub n t := by
  show (if isPre n (c :: t) then some ((c :: t).drop n.length)
    else afterSub n t) = afterSub n t
  rw [h]
  rfl

theorem afterSub_cons_pos (n : List Char) (c : Char) (t : List Char)
    (h : isPre n (c :: t) = true) :
    afterSub n (c :: t) = some ((c :: t).drop n.length) := by
  show (if isPre n (c :: t) then some ((c :: t).drop n.length)
    else afterSub n t) = some ((c :: t).drop n.length)
  rw [h]
  rfl

theorem afterSub_values (field : List Char) :
    afterSub ("values=".data) (valuesNeedle ++ field) = some field := by
  have hn1 : isPre ("values=".data)
      (':' :: ' ' :: ("values=".data ++ field)) = false := by
    show (if 'v' = ':' then
      isPre "alues=".data (' ' :: ("values=".data ++ field))
      else false) = false
    rw [if_neg (by decide)]
  have hn2 : isPre ("values=".data)
      (' ' :: ("values=".data ++ field)) = false := by
    show (if 'v' = ' ' then
      isPre "alues=".data ("values=".data ++ field) else false) = false
    rw [if_neg (by decide)]
  have hpos : isPre ("values=".data)
      ('v' :: ("alues=".data ++ field)) = true :=
    isPre_append_self "values=".data field
  show afterSub ("values=".data)
    (':' :: ' ' :: ("values=".data ++ field)) = some field
  rw [afterSub_cons_neg _ _ _ hn1, afterSub_cons_neg _ _ _ hn2]
  show afterSub ("values=".data) ('v' :: ("alues=".data ++ field))
    = some field
  rw [afterSub_cons_pos _ _ _ hpos]
  exact congrArg some (List.drop_left "values=".data field)

theorem break_not_mem_toHex2 (b : Nat) (h : b < 256) :
    ∀ c ∈ toHex2 b, isLineBreak c = false := by
  have h1 : b / 16 < 16 := by omega
  have h2 : b % 16 < 16 := by omega
  intro c hm
  simp only [toHex2, List.mem_cons, List.not_mem_nil, or_false] at hm
  rcases hm with hm | hm
  · rw [hm]; exact hexChar_not_break _ h1
  · rw [hm]; exact hexChar_not_break _ h2

/-- C1: `read_string` (modelled from the spec) returns "N/A" on a falsy
card index, "Error" when the mixer CLI is missing or exits non-zero, and
on an output line "values=" followed by comma-separated hex bytes it
returns the bytes decoded as text up to the first null byte. -/
theorem read_string_spec :
    ∀ (name : String) (env : Env),
      read_string none name env = "N/A"
      ∧ (∀ cid : String, cid.data ≠ [] →
          (env (cget_cmd cid name) = .noBinary →
            read_string (some cid) name env = "Error")
          ∧ (env (cget_cmd cid name) = .nonZeroExit →
            read_string (some cid) name env = "Error")
          ∧ (∀ bs : List Nat, bs ≠ [] → (∀ b ∈ bs, b < 256) →
              env (cget_cmd cid name) = .ok (": values=" ++ hexField bs) →
              read_string (some cid) name env
                = String.mk
                    ((bs.takeWhile (fun b => b ≠ 0)).map Char.ofNat))) := by
  intro name env
  refine ⟨rfl, fun cid hcid => ?_⟩
  have hce := isEmpty_false_of_ne_nil hcid
  refine ⟨fun h => by simp [read_string, hce, h],
    fun h => by simp [read_string, hce, h],
    fun bs hbs hlt henv => ?_⟩
  have hdata : (": values=" ++ hexField bs).data
      = valuesNeedle ++ joinCommas (bs.map toHex2) := by
    rw [String.data_append]
    rfl
  have hvn : ∀ c ∈ valuesNeedle, isLineBreak c = false := by decide
  have hnobreak : ∀ c ∈ (": values=" ++ hexField bs).data,
      isLineBreak c = false := by
    intro c hm
    rw [hdata] at hm
    rcases List.mem_append.mp hm with hm | hm
    · exact hvn c hm
    · rcases mem_joinCommas _ c hm with hc | ⟨t, ht, hct⟩
      · rw [hc]; rfl
      · rcases List.mem_map.mp ht with ⟨b, hb, hbt⟩
        exact break_not_mem_toHex2 b (hlt b hb) c (hbt ▸ hct)
  have hne : (": values=" ++ hexField bs).data ≠ [] := by
    rw [hdata]
    simp [valuesNeedle]
  have h1 : pySplitlines (": values=" ++ hexField bs)
      = [valuesNeedle ++ joinCommas (bs.map toHex2)] := by
    rw [pySplitlines_single _ hne hnobreak, hdata]
  have hcont : containsSub valuesNeedle
      (valuesNeedle ++ joinCommas (bs.map toHex2)) = true :=
    containsSub_parts valuesNeedle [] (joinCommas (bs.map toHex2))
  have hfind : find_values_line
      [valuesNeedle ++ joinCommas (bs.map toHex2)]
      = some (valuesNeedle ++ joinCommas (bs.map toHex2)) := by
    simp [find_values_line, hcont]
  have hsplitTok : splitOnChar ',' (joinCommas (bs.map toHex2))
      = bs.map toHex2 := by
    refine splitOnChar_joinCommas _ (by simp [hbs]) ?_
    intro t ht
    rcases List.mem_map.mp ht with ⟨b, hb, hbt⟩
    exact hbt ▸ comma_not_mem_toHex2 b (hlt b hb)
  unfold read_string
  simp only [hce, Bool.false_eq_true, if_neg, not_false_eq_true, henv,
    h1, hfind]
  rw [afterSub_values]
  show (match parseHexBytes (splitOnChar ',' (joinCommas (bs.map toHex2))) with
    | none => "Error"
    | some bs2 => decodeBytes bs2)
    = String.mk ((bs.takeWhile (fun b => b ≠ 0)).map Char.ofNat)
  rw [hsplitTok, parseHexBytes_map bs hlt]
  rfl

/-- C1 witness: the spec's example bytes 55,53,31,34,34,4D,4B,49,49,00
decode to "US144MKII". -/
theorem read_string_spec_witness :
    read_string (some "2") "Mixer Name"
      (fun c => if c = cget_cmd "2" "Mixer Name" then
        .ok ": values=55,53,31,34,34,4D,4B,49,49,00" else .noBinary)
      = "US144MKII" := by
  have h := ((read_string_spec "Mixer Name"
      (fun c => if c = cget_cmd "2" "Mixer Name" then
        .ok ": values=55,53,31,34,34,4D,4B,49,49,00" else .noBinary)).2
      "2" (by decide)).2.2
      [0x55, 0x53, 0x31, 0x34, 0x34, 0x4D, 0x4B, 0x49, 0x49, 0x00]
      (by decide) (by decide) (by decide)
  rw [h]
  decide

end Tascam
